import Mathlib

/-!
Shallow embedding of the resource-protection layer of the GfG-IEC service:
the token-bucket rate limiter (rate_limiter.py), the TTL+LRU cache
(cache_manager.py), and the request throttle with circuit breaker
(request_throttler.py).  Timestamps and token counts are modelled as exact
rationals; Python dicts become association lists or functions to Option;
a Python KeyError becomes an Option result.
-/

namespace GfG

/-- Python int() applied to a non-integral numeric value: truncation toward zero. -/
def pyInt (q : ℚ) : ℤ := if 0 ≤ q then ⌊q⌋ else ⌈q⌉

/-- A token bucket, as stored in RateLimiter.buckets: a dict with keys
tokens and last_update. -/
structure Bucket where
  tokens : ℚ
  lastUpdate : ℚ
  deriving Repr, DecidableEq

/-- The state of the RateLimiter instance: the per-identifier bucket table,
the global bucket, and the initialized flag of the global bucket
(None in Python before the first global check, modelled as a Bool). -/
structure RLState where
  buckets : String → Option Bucket
  globalBucket : Bucket
  globalInit : Bool

/-- RateLimiter.__init__: empty bucket table, global bucket at 0 tokens with
last_update set to the construction time, initialized flag unset. -/
def rlInit (t0 : ℚ) : RLState :=
  { buckets := fun _ => none
    globalBucket := { tokens := 0, lastUpdate := t0 }
    globalInit := false }

/-- RateLimiter._refill_bucket: add elapsed * refill_rate tokens, clamped at
capacity, and stamp last_update with now. -/
def refillBucket (b : Bucket) (capacity refillRate now : ℚ) : Bucket :=
  { tokens := min capacity (b.tokens + (now - b.lastUpdate) * refillRate)
    lastUpdate := now }

/-- RateLimiter.is_allowed: lazily create a full bucket for an unseen
identifier, refill it, then consume one token when at least 1.0 is
available.  Returns the decision and the updated limiter state. -/
def isAllowed (s : RLState) (identifier : String) (capacity refillRate now : ℚ) :
    Bool × RLState :=
  let b0 := (s.buckets identifier).getD { tokens := capacity, lastUpdate := now }
  let b1 := refillBucket b0 capacity refillRate now
  if 1 ≤ b1.tokens then
    (true, { s with buckets := Function.update s.buckets identifier
                      (some { b1 with tokens := b1.tokens - 1 }) })
  else
    (false, { s with buckets := Function.update s.buckets identifier (some b1) })

/-- RateLimiter.is_globally_allowed: on the first call set the global bucket
to full capacity, then refill and consume exactly as is_allowed does. -/
def isGloballyAllowed (s : RLState) (capacity refillRate now : ℚ) : Bool × RLState :=
  let g0 := if s.globalInit then s.globalBucket
            else { s.globalBucket with tokens := capacity }
  let g1 := refillBucket g0 capacity refillRate now
  if 1 ≤ g1.tokens then
    (true, { s with globalBucket := { g1 with tokens := g1.tokens - 1 }, globalInit := true })
  else
    (false, { s with globalBucket := g1, globalInit := true })

/-- RateLimiter.get_retry_after: reads the identifier's bucket unguarded
(none here models the Python KeyError on a missing bucket); returns 0 when
no token is needed, otherwise int(tokens_needed / refill_rate) + 1. -/
def getRetryAfter (s : RLState) (identifier : String) (refillRate : ℚ) : Option ℤ :=
  match s.buckets identifier with
  | none => none
  | some b =>
    let tokensNeeded := 1 - b.tokens
    if tokensNeeded ≤ 0 then some 0
    else some (pyInt (tokensNeeded / refillRate) + 1)

/-- Outcome of the rate_limit decorator wrapper: a 503 global refusal, a 429
per-identifier refusal carrying get_retry_after's result, or pass-through to
the wrapped handler. -/
inductive RLOutcome where
  | globalDenied (retryAfter : ℤ)
  | userDenied (retryAfter : Option ℤ)
  | proceed
  deriving Repr, DecidableEq

/-- The rate_limit decorator wrapper: first the global check with capacity
1000 and refill rate 10.0, returning the global refusal with retry_after 10
on denial; then the per-identifier check, returning a refusal built from
get_retry_after on denial; otherwise proceed. -/
def rateLimit (s : RLState) (identifier : String) (capacity refillRate now : ℚ) :
    RLOutcome × RLState :=
  let g := isGloballyAllowed s 1000 10 now
  if g.1 then
    let u := isAllowed g.2 identifier capacity refillRate now
    if u.1 then (RLOutcome.proceed, u.2)
    else (RLOutcome.userDenied (getRetryAfter u.2 identifier refillRate), u.2)
  else (RLOutcome.globalDenied 10, g.2)

/-- A cache entry, as stored in CacheManager.cache: a dict with keys value,
expires_at and created_at. -/
structure CacheEntry (α : Type) where
  value : α
  expiresAt : ℚ
  createdAt : ℚ
  deriving Repr, DecidableEq

/-- The state of a CacheManager instance.  The OrderedDict is an association
list in recency order: head = least recently used (first popped by
popitem(last=False)), last = most recently used (move_to_end target). -/
structure CacheState (α : Type) where
  entries : List (String × CacheEntry α)
  maxSize : ℕ
  hits : ℕ
  misses : ℕ
  evictions : ℕ
  deriving Repr, DecidableEq

/-- Dict membership and indexing: the entry stored under a key, if any. -/
def lookupEntry {α : Type} : List (String × CacheEntry α) → String → Option (CacheEntry α)
  | [], _ => none
  | p :: l, key => if p.1 = key then some p.2 else lookupEntry l key

/-- Removal of a key from the OrderedDict (del self.cache[key]). -/
def eraseKey {α : Type} : List (String × CacheEntry α) → String → List (String × CacheEntry α)
  | [], _ => []
  | p :: l, key => if p.1 = key then eraseKey l key else p :: eraseKey l key

/-- CacheManager.get: absent key is a miss; a present fresh entry
(now strictly before expires_at) is a hit, moved to the most-recently-used
end, and its value returned; a present expired entry is deleted and counted
as a miss.  The Python return value None is the none result. -/
def cacheGet {α : Type} (s : CacheState α) (key : String) (now : ℚ) :
    Option α × CacheState α :=
  match lookupEntry s.entries key with
  | none => (none, { s with misses := s.misses + 1 })
  | some e =>
    if now < e.expiresAt then
      (some e.value,
       { s with entries := eraseKey s.entries key ++ [(key, e)], hits := s.hits + 1 })
    else
      (none, { s with entries := eraseKey s.entries key, misses := s.misses + 1 })

/-- CacheManager.set: when len(cache) >= max_size, pop the head (least
recently used) and count an eviction — unconditionally, whether or not key
is already present; then write the entry with expires_at = now + ttl and
move it to the most-recently-used end. -/
def cacheSet {α : Type} (s : CacheState α) (key : String) (v : α) (ttl now : ℚ) :
    CacheState α :=
  let popped := if s.maxSize ≤ s.entries.length then s.entries.drop 1 else s.entries
  let evs := if s.maxSize ≤ s.entries.length then s.evictions + 1 else s.evictions
  { s with
    entries := eraseKey popped key ++ [(key, { value := v, expiresAt := now + ttl, createdAt := now })]
    evictions := evs }

/-- The cached decorator wrapper, one call: look the key up; when the value
obtained is Python None — either because the key missed or because the
stored value itself is None, indistinguishable to the wrapper — run the
wrapped function (its result here is the parameter fres), store the result,
and return it; otherwise return the cached value without running the
function.  Result: (returned value, cache state after, whether the wrapped
function ran). -/
def cachedCall {β : Type} (s : CacheState (Option β)) (key : String) (fres : Option β)
    (ttl now : ℚ) : Option β × CacheState (Option β) × Bool :=
  let r := cacheGet s key now
  match r.1.join with
  | some w => (some w, r.2, false)
  | none => (fres, cacheSet r.2 key fres ttl now, true)

/-- Python round() with 2 decimal digits on an exact value: scale by 100,
round half to even, scale back. -/
def roundHalfEven (x : ℚ) : ℤ :=
  if x - ⌊x⌋ < 1/2 then ⌊x⌋
  else if 1/2 < x - ⌊x⌋ then ⌊x⌋ + 1
  else if ⌊x⌋ % 2 = 0 then ⌊x⌋ else ⌊x⌋ + 1

/-- Python round(x, 2). -/
def pyRound2 (x : ℚ) : ℚ := (roundHalfEven (x * 100) : ℚ) / 100

/-- Outcome of the throttle_request decorator: a 503 refusal carrying
round(remaining, 2), or pass-through. -/
inductive ThrottleOutcome where
  | denied (retryAfter : ℚ)
  | allowed
  deriving Repr, DecidableEq

/-- The throttle_request decorator wrapper, one call: compare now against
the shared last_request_time; deny with retry_after = round(remaining, 2)
and leave the timestamp alone when the elapsed time is below
min_delay_ms/1000, else set the timestamp to now and proceed.  Result:
(outcome, timestamp after the call). -/
def throttleRequest (lastTimestamp minDelayMs now : ℚ) : ThrottleOutcome × ℚ :=
  let minDelaySeconds := minDelayMs / 1000
  let timeSinceLast := now - lastTimestamp
  if timeSinceLast < minDelaySeconds then
    (ThrottleOutcome.denied (pyRound2 (minDelaySeconds - timeSinceLast)), lastTimestamp)
  else
    (ThrottleOutcome.allowed, now)

/-- The module-level circuit_breaker dict of request_throttler.py. -/
structure CBState where
  failures : ℕ
  lastFailure : ℚ
  isOpen : Bool
  openedAt : ℚ
  deriving Repr, DecidableEq

/-- CIRCUIT_BREAKER_THRESHOLD = 10. -/
def cbThreshold : ℕ := 10

/-- CIRCUIT_BREAKER_TIMEOUT = 300 seconds. -/
def cbTimeout : ℚ := 300

/-- FAILURE_WINDOW = 60 seconds. -/
def failureWindow : ℚ := 60

/-- The initial module state: all counters and timestamps zero, closed. -/
def cbInit : CBState :=
  { failures := 0, lastFailure := 0, isOpen := false, openedAt := 0 }

/-- circuit_breaker_check: when open, close and zero the failure count once
now - opened_at exceeds the timeout, else stay open; when closed, zero the
failure count once now - last_failure exceeds the failure window, and always
report not short-circuited. -/
def circuitBreakerCheck (s : CBState) (now : ℚ) : Bool × CBState :=
  if s.isOpen then
    if cbTimeout < now - s.openedAt then
      (false, { s with isOpen := false, failures := 0 })
    else (true, s)
  else
    if failureWindow < now - s.lastFailure then
      (false, { s with failures := 0 })
    else (false, s)

/-- record_failure: bump the failure count, stamp last_failure, and open the
breaker (stamping opened_at) once the count reaches the threshold. -/
def recordFailure (s : CBState) (now : ℚ) : CBState :=
  let s1 := { s with failures := s.failures + 1, lastFailure := now }
  if cbThreshold ≤ s1.failures then
    { s1 with isOpen := true, openedAt := now }
  else s1

/-- An observable event against the breaker state: a recorded failure or a
short-circuit check, each at a point in time. -/
inductive CBEvent where
  | fail (t : ℚ)
  | check (t : ℚ)
  deriving Repr, DecidableEq

/-- One event applied to the breaker state. -/
def cbStep (s : CBState) (e : CBEvent) : CBState :=
  match e with
  | .fail t => recordFailure s t
  | .check t => (circuitBreakerCheck s t).2

/-- A sequence of breaker events. -/
def cbRun (s : CBState) (es : List CBEvent) : CBState := es.foldl cbStep s

/-- The times at which failures were recorded in an event sequence. -/
def failureTimes : List CBEvent → List ℚ
  | [] => []
  | CBEvent.fail t :: es => t :: failureTimes es
  | CBEvent.check _ :: es => failureTimes es

/-- At least cbThreshold of the given failure times fall within one span of
length failureWindow.  Anchoring the span at one of the failure times loses
no generality: a span holding that many failures can be slid left until its
left end is the earliest failure it holds. -/
def hasThresholdWithinWindow (times : List ℚ) : Prop :=
  ∃ t0 ∈ times,
    cbThreshold ≤ (times.filter (fun t => decide (t0 ≤ t ∧ t ≤ t0 + failureWindow))).length

instance : DecidablePred hasThresholdWithinWindow := fun _ =>
  List.decidableBEx _ _

/-! Concrete states used by counterexamples and witnesses. -/

/-- A limiter state holding one bucket, for identifier u, drained to exactly
0 tokens. -/
def zeroBucketState : RLState :=
  { buckets := fun id => if id = "u" then some { tokens := 0, lastUpdate := 0 } else none
    globalBucket := { tokens := 0, lastUpdate := 0 }
    globalInit := false }

/-- A cache at maxSize = 1 whose single key k is live until time 100. -/
def fullCacheOne : CacheState Nat :=
  { entries := [("k", { value := 0, expiresAt := 100, createdAt := 0 })]
    maxSize := 1, hits := 0, misses := 0, evictions := 0 }

/-! C1.  The spec says retryAfterSeconds is ceil((1.0 - tokens)/refillRate)
with a minimum of 1, and that a bucket at 0 tokens with refillRate 0.1/s
yields 10.  The code computes int(tokens_needed / refill_rate) + 1, which is
floor + 1, not ceil: at an exact-integer quotient it is one more than the
ceiling. -/

/-- C1 counterexample: for the bucket at 0 tokens and refillRate 1/10 the
code returns 11, while ceil((1 - 0)/(1/10)) = 10 — the spec's claimed value
10 (also the claimed ceiling-with-minimum-1) is not what the code returns. -/
theorem c1_retry_after_counterexample :
    getRetryAfter zeroBucketState "u" (1/10) = some 11 ∧
    ⌈((1 : ℚ) - 0) / (1/10)⌉ = 10 ∧ (11 : ℤ) ≠ 10 := by
  have hb : zeroBucketState.buckets "u" = some { tokens := 0, lastUpdate := 0 } := by
    simp [zeroBucketState]
  refine ⟨?_, by norm_num, by decide⟩
  unfold getRetryAfter
  rw [hb]
  norm_num [pyInt]

/-- C1 amended: for an identifier whose bucket exists, get_retry_after
returns 0 when the bucket already holds at least 1.0 token, and otherwise
returns floor((1.0 - tokens)/refillRate) + 1, which is always at least 1;
at 0 tokens with refillRate 0.1/s this yields 11, not 10. -/
theorem c1_retry_after_amended (s : RLState) (identifier : String) (b : Bucket)
    (refillRate : ℚ) (hb : s.buckets identifier = some b) (hrate : 0 < refillRate) :
    (1 ≤ b.tokens → getRetryAfter s identifier refillRate = some 0) ∧
    (b.tokens < 1 →
      getRetryAfter s identifier refillRate = some (⌊(1 - b.tokens) / refillRate⌋ + 1) ∧
      1 ≤ ⌊(1 - b.tokens) / refillRate⌋ + 1) := by
  unfold getRetryAfter
  rw [hb]
  constructor
  · intro h1
    have hle : 1 - b.tokens ≤ 0 := by linarith
    simp [hle]
  · intro h1
    have hpos : (0 : ℚ) < 1 - b.tokens := by linarith
    have hq : 0 ≤ (1 - b.tokens) / refillRate := le_of_lt (div_pos hpos hrate)
    have hns : ¬ (1 - b.tokens ≤ 0) := by linarith
    refine ⟨by simp [hns, pyInt, hq], ?_⟩
    have hf : 0 ≤ ⌊(1 - b.tokens) / refillRate⌋ := Int.floor_nonneg.mpr hq
    omega

/-- C1 witness: the amended statement applied to the bucket at 0 tokens with
refillRate 1/10. -/
theorem c1_retry_after_witness :
    getRetryAfter zeroBucketState "u" (1/10) =
      some (⌊((1 : ℚ) - (0 : ℚ)) / (1/10)⌋ + 1) ∧
    1 ≤ ⌊((1 : ℚ) - (0 : ℚ)) / (1/10)⌋ + 1 :=
  (c1_retry_after_amended zeroBucketState "u" { tokens := 0, lastUpdate := 0 } (1/10)
    (by decide) (by norm_num)).2 (by norm_num)

/-! C2.  The spec says set evicts (and counts an eviction) exactly when the
store is at maxSize and the key is new, so that overwriting an existing key
at maxSize does not evict.  The code pops the oldest entry whenever
len(cache) >= max_size, without checking whether the key is already
present. -/

/-- C2 counterexample: overwriting the existing key k of a store at
maxSize = 1 evicts an entry and increments the eviction counter, which the
claim says must not happen. -/
theorem c2_set_eviction_counterexample :
    fullCacheOne.entries.length = fullCacheOne.maxSize ∧
    lookupEntry fullCacheOne.entries "k" ≠ none ∧
    (cacheSet fullCacheOne "k" 1 10 5).evictions = fullCacheOne.evictions + 1 ∧
    fullCacheOne.evictions + 1 ≠ fullCacheOne.evictions := by
  refine ⟨by decide, by decide, by decide, by decide⟩

/-- C2 amended: set evicts the least-recently-used (head) entry and
increments the eviction counter if and only if the store holds at least
maxSize entries — whether or not the key is new — and in every case the
entry is inserted with expiresAt = now + ttl at the most-recently-used end.
The hypothesis 0 < maxSize keeps the model inside the domain where the
Python popitem cannot raise. -/
theorem c2_set_eviction_amended {α : Type} (s : CacheState α) (key : String) (v : α)
    (ttl now : ℚ) (hmax : 0 < s.maxSize) :
    (s.maxSize ≤ s.entries.length →
      cacheSet s key v ttl now =
        { s with entries := eraseKey (s.entries.drop 1) key ++
                   [(key, { value := v, expiresAt := now + ttl, createdAt := now })]
                 evictions := s.evictions + 1 }) ∧
    (s.entries.length < s.maxSize →
      cacheSet s key v ttl now =
        { s with entries := eraseKey s.entries key ++
                   [(key, { value := v, expiresAt := now + ttl, createdAt := now })] }) := by
  constructor
  · intro h
    simp only [cacheSet, if_pos h]
  · intro h
    simp only [cacheSet, if_neg (not_le.mpr h)]

/-- C2 witness: the amended statement applied to the full one-slot cache:
the overwrite of k evicts and bumps the eviction counter. -/
theorem c2_set_eviction_witness :
    (cacheSet fullCacheOne "k" 1 10 5).evictions = fullCacheOne.evictions + 1 := by
  have h := (c2_set_eviction_amended fullCacheOne "k" 1 10 5 (by decide)).1 (by decide)
  rw [h]

/-! C3.  The spec reads the failure window as sliding: the breaker may be
Open only when at least 10 failures fell within some 60-second span.  In the
code the counter is reset only when a check runs more than 60 seconds after
the most recent failure, so failures spaced just under 60 seconds apart
accumulate forever and the breaker opens across a span far wider than the
window. -/

/-- Ten failures spaced 59 seconds apart (total span 531 s), with a
short-circuit check between every two failures and one after the last. -/
def c3Events : List CBEvent :=
  [CBEvent.fail 0, CBEvent.check 58, CBEvent.fail 59, CBEvent.check 117,
   CBEvent.fail 118, CBEvent.check 176, CBEvent.fail 177, CBEvent.check 235,
   CBEvent.fail 236, CBEvent.check 294, CBEvent.fail 295, CBEvent.check 353,
   CBEvent.fail 354, CBEvent.check 412, CBEvent.fail 413, CBEvent.check 471,
   CBEvent.fail 472, CBEvent.check 530, CBEvent.fail 531, CBEvent.check 531]

/-- C3 counterexample: after ten failures 59 s apart — checks interleaved —
the breaker is Open, yet no 60-second span contains the threshold of 10
recorded failures (every span holds at most 2), refuting the claim that the
breaker is Open only when the threshold is reached within the sliding
window. -/
theorem c3_open_window_counterexample :
    (cbRun cbInit c3Events).isOpen = true ∧
    ¬ hasThresholdWithinWindow (failureTimes c3Events) := by
  constructor
  · norm_num [cbRun, cbStep, cbInit, c3Events, recordFailure, circuitBreakerCheck,
      cbThreshold, cbTimeout, failureWindow]
  · norm_num [hasThresholdWithinWindow, failureTimes, c3Events, cbThreshold,
      failureWindow, List.filter]

/-- C3 amended: from a Closed state, record_failure opens the breaker exactly
when the incremented failure count reaches the threshold of 10, counting
every failure since the last reset; and a check resets the count to 0 exactly
when it runs more than failureWindow seconds after the most recent failure
(returning not-short-circuited either way).  The count is therefore not a
count over a sliding 60-second span: failures less than 60 s apart accumulate
indefinitely. -/
theorem c3_open_threshold_amended (s : CBState) (t : ℚ) (hclosed : s.isOpen = false) :
    ((recordFailure s t).isOpen = true ↔ cbThreshold ≤ s.failures + 1) ∧
    ((circuitBreakerCheck s t).2.failures =
      if failureWindow < t - s.lastFailure then 0 else s.failures) ∧
    (circuitBreakerCheck s t).1 = false := by
  refine ⟨?_, ?_, ?_⟩
  · unfold recordFailure
    by_cases h : cbThreshold ≤ s.failures + 1
    · simp [h]
    · simp [h, hclosed]
  · unfold circuitBreakerCheck
    rw [hclosed]
    by_cases h : failureWindow < t - s.lastFailure
    · simp [h]
    · simp [h]
  · unfold circuitBreakerCheck
    rw [hclosed]
    by_cases h : failureWindow < t - s.lastFailure
    · simp [h]
    · simp [h]

/-- C3 witness: the amended statement applied to the initial Closed state at
time 5. -/
theorem c3_open_threshold_witness :
    ((recordFailure cbInit 5).isOpen = true ↔ cbThreshold ≤ cbInit.failures + 1) ∧
    ((circuitBreakerCheck cbInit 5).2.failures =
      if failureWindow < 5 - cbInit.lastFailure then 0 else cbInit.failures) ∧
    (circuitBreakerCheck cbInit 5).1 = false :=
  c3_open_threshold_amended cbInit 5 rfl

/-! C6.  The spec states that a call arriving before minDelayMs has elapsed
is denied with retryAfter exactly minDelayMs - elapsed (in fractional
seconds).  The code reports round(remaining, 2) — the remainder rounded to
two decimal digits — so the reported value differs from the exact remainder
whenever that has more than two decimal digits. -/

/-- C6 counterexample: with the shared timestamp at 0, minDelayMs = 500 and
a call at 0.111 s, the exact remainder is 0.389 s but the code denies with
retryAfter 0.39. -/
theorem c6_throttle_counterexample :
    throttleRequest 0 500 (111/1000) = (ThrottleOutcome.denied (39/100), 0) ∧
    (39 : ℚ)/100 ≠ 500/1000 - ((111:ℚ)/1000 - 0) := by
  constructor
  · unfold throttleRequest
    rw [if_pos (by norm_num)]
    norm_num [pyRound2, roundHalfEven]
  · norm_num

/-- C6 amended: a throttled call with elapsed time below minDelayMs/1000 is
denied with retryAfter = round(minDelayMs/1000 - elapsed, 2) — the exact
remainder rounded to two decimal digits — and the shared timestamp is not
updated; an allowed call sets the timestamp to now.  Two calls with
minDelayMs = 500 issued 100 ms apart yield first allowed, second denied with
retryAfter = 0.4 s exactly (0.4 having at most two decimal digits). -/
theorem c6_throttle_amended (lastTimestamp minDelayMs now : ℚ) :
    (now - lastTimestamp < minDelayMs / 1000 →
      throttleRequest lastTimestamp minDelayMs now =
        (ThrottleOutcome.denied (pyRound2 (minDelayMs / 1000 - (now - lastTimestamp))),
         lastTimestamp)) ∧
    (minDelayMs / 1000 ≤ now - lastTimestamp →
      throttleRequest lastTimestamp minDelayMs now = (ThrottleOutcome.allowed, now)) ∧
    throttleRequest 0 500 1 = (ThrottleOutcome.allowed, 1) ∧
    throttleRequest 1 500 (11/10) = (ThrottleOutcome.denied (2/5), 1) := by
  refine ⟨?_, ?_, ?_, ?_⟩
  · intro h
    unfold throttleRequest
    rw [if_pos h]
  · intro h
    unfold throttleRequest
    rw [if_neg (not_lt.mpr h)]
  · unfold throttleRequest
    rw [if_neg (by norm_num)]
  · unfold throttleRequest
    rw [if_pos (by norm_num)]
    norm_num [pyRound2, roundHalfEven]

/-- C6 witness: the amended denial branch applied to the second of the two
paced calls. -/
theorem c6_throttle_witness :
    throttleRequest 1 500 (11/10) =
      (ThrottleOutcome.denied (pyRound2 (500 / 1000 - ((11:ℚ)/10 - 1))), 1) :=
  (c6_throttle_amended 1 500 (11/10)).1 (by norm_num)

/-! C7.  Auto-close of the circuit breaker from the Open state. -/

/-- C7: while the breaker is Open, a check within cooldown (now - openedAt
at most cbTimeout) short-circuits and leaves the state untouched; the first
check past the cooldown returns not-short-circuited and transitions straight
to Closed with the failure count reset to 0 — there is no intermediate
half-open trial state (the state carries only the Boolean isOpen). -/
theorem c7_breaker_autoclose (s : CBState) (t : ℚ) (hopen : s.isOpen = true) :
    (t - s.openedAt ≤ cbTimeout → circuitBreakerCheck s t = (true, s)) ∧
    (cbTimeout < t - s.openedAt →
      circuitBreakerCheck s t = (false, { s with isOpen := false, failures := 0 })) := by
  unfold circuitBreakerCheck
  rw [hopen]
  constructor
  · intro h
    simp [not_lt.mpr h]
  · intro h
    simp [h]

/-- A breaker opened at time 100 after ten failures. -/
def openBreaker : CBState :=
  { failures := 10, lastFailure := 100, isOpen := true, openedAt := 100 }

/-- C7 witness: at time 401 (301 s past openedAt, beyond the 300 s cooldown)
the check closes the breaker, zeroes the failure count and reports
not-short-circuited; at time 400 it still short-circuits unchanged. -/
theorem c7_breaker_autoclose_witness :
    circuitBreakerCheck openBreaker 400 = (true, openBreaker) ∧
    circuitBreakerCheck openBreaker 401 =
      (false, { openBreaker with isOpen := false, failures := 0 }) :=
  ⟨(c7_breaker_autoclose openBreaker 400 rfl).1 (by norm_num [openBreaker, cbTimeout]),
   (c7_breaker_autoclose openBreaker 401 rfl).2 (by norm_num [openBreaker, cbTimeout])⟩

/-! C4.  The get contract of the cache, including the TTL scenario. -/

/-- Looking a key up after erasing it finds nothing. -/
lemma lookupEntry_eraseKey {α : Type} (l : List (String × CacheEntry α)) (key : String) :
    lookupEntry (eraseKey l key) key = none := by
  induction l with
  | nil => rfl
  | cons p l ih =>
    by_cases h : p.1 = key
    · simpa [eraseKey, h] using ih
    · simp [eraseKey, lookupEntry, h, ih]

/-- Looking a key up after erasing it and appending a fresh binding finds
exactly that binding. -/
lemma lookupEntry_eraseKey_append {α : Type} (l : List (String × CacheEntry α))
    (key : String) (e : CacheEntry α) :
    lookupEntry (eraseKey l key ++ [(key, e)]) key = some e := by
  induction l with
  | nil => simp [eraseKey, lookupEntry]
  | cons p l ih =>
    by_cases h : p.1 = key
    · simpa [eraseKey, h] using ih
    · simpa [eraseKey, lookupEntry, h] using ih

/-- The entries of a store after set: the head is popped when the store held
at least maxSize entries, the key's old binding is removed, and the new
binding sits at the most-recently-used end. -/
lemma cacheSet_entries {α : Type} (s : CacheState α) (key : String) (v : α) (ttl now : ℚ) :
    (cacheSet s key v ttl now).entries =
      eraseKey (if s.maxSize ≤ s.entries.length then s.entries.drop 1 else s.entries) key ++
      [(key, { value := v, expiresAt := now + ttl, createdAt := now })] := rfl

/-- set never touches the hit and miss counters. -/
lemma cacheSet_stats {α : Type} (s : CacheState α) (key : String) (v : α) (ttl now : ℚ) :
    (cacheSet s key v ttl now).misses = s.misses ∧
    (cacheSet s key v ttl now).hits = s.hits := ⟨rfl, rfl⟩

/-- C4: get on an absent key is a counted miss returning none; get on a
present, unexpired entry (now strictly before expiresAt) is a counted hit
that moves the entry to the most-recently-used end and returns its value;
get on a present expired entry removes it and is a counted miss; and an
entry set with ttl = 1 read 11/10 of a second later is a counted miss. -/
theorem c4_get_spec {α : Type} (s : CacheState α) (key : String) (now : ℚ) :
    (lookupEntry s.entries key = none →
      cacheGet s key now = (none, { s with misses := s.misses + 1 })) ∧
    (∀ e : CacheEntry α, lookupEntry s.entries key = some e → now < e.expiresAt →
      cacheGet s key now =
        (some e.value,
         { s with entries := eraseKey s.entries key ++ [(key, e)], hits := s.hits + 1 })) ∧
    (∀ e : CacheEntry α, lookupEntry s.entries key = some e → e.expiresAt ≤ now →
      cacheGet s key now =
        (none, { s with entries := eraseKey s.entries key, misses := s.misses + 1 })) ∧
    (∀ (v : α) (t : ℚ),
      (cacheGet (cacheSet s key v 1 t) key (t + 11/10)).1 = none ∧
      (cacheGet (cacheSet s key v 1 t) key (t + 11/10)).2.misses = s.misses + 1) := by
  refine ⟨?_, ?_, ?_, ?_⟩
  · intro h
    unfold cacheGet
    rw [h]
  · intro e he hf
    unfold cacheGet
    rw [he]
    simp only [if_pos hf]
  · intro e he hexp
    unfold cacheGet
    rw [he]
    simp only [if_neg (not_lt.mpr hexp)]
  · intro v t
    have hl : lookupEntry (cacheSet s key v 1 t).entries key =
        some { value := v, expiresAt := t + 1, createdAt := t } := by
      rw [cacheSet_entries]
      exact lookupEntry_eraseKey_append _ _ _
    have hcond : ¬ (t + 11/10 <
        ({ value := v, expiresAt := t + 1, createdAt := t } : CacheEntry α).expiresAt) := by
      simp only []
      push_neg
      linarith
    unfold cacheGet
    rw [hl]
    simp only [if_neg hcond]
    exact ⟨trivial, congrArg (· + 1) (cacheSet_stats s key v 1 t).1⟩

/-- A cache holding one live entry under k (value 7, expires at 10). -/
def cacheWithK : CacheState Nat :=
  { entries := [("k", { value := 7, expiresAt := 10, createdAt := 0 })]
    maxSize := 5, hits := 0, misses := 0, evictions := 0 }

/-- C4 witness: reading k at time 5 — before expiry — is a counted hit
returning 7 and re-queues the entry at the most-recently-used end. -/
theorem c4_get_witness :
    cacheGet cacheWithK "k" 5 =
      (some 7,
       { cacheWithK with
         entries := eraseKey cacheWithK.entries "k" ++
           [("k", { value := 7, expiresAt := 10, createdAt := 0 })]
         hits := cacheWithK.hits + 1 }) :=
  (c4_get_spec cacheWithK "k" 5).2.1 { value := 7, expiresAt := 10, createdAt := 0 }
    (by decide) (by norm_num)

/-! C5.  Precedence of the global bucket in the rate_limit wrapper. -/

/-- The global check never touches the per-identifier bucket table. -/
lemma isGloballyAllowed_buckets (s : RLState) (capacity refillRate now : ℚ) :
    (isGloballyAllowed s capacity refillRate now).2.buckets = s.buckets := by
  unfold isGloballyAllowed
  split <;> (dsimp only; split <;> rfl)

/-- C5: the wrapper consults the global bucket first; whenever the global
check denies, the wrapper returns the global-scope refusal (retry_after 10)
and the per-identifier bucket table — every bucket's tokens and lastUpdate —
is exactly as before the call: not decremented, not refilled, not created. -/
theorem c5_global_precedence (s : RLState) (identifier : String)
    (capacity refillRate now : ℚ)
    (hdeny : (isGloballyAllowed s 1000 10 now).1 = false) :
    (rateLimit s identifier capacity refillRate now).1 = RLOutcome.globalDenied 10 ∧
    (rateLimit s identifier capacity refillRate now).2.buckets = s.buckets := by
  unfold rateLimit
  dsimp only
  rw [hdeny]
  simp only [Bool.false_eq_true, if_false]
  exact ⟨trivial, isGloballyAllowed_buckets s 1000 10 now⟩

/-- A limiter whose global bucket is exhausted (0 tokens, just updated). -/
def exhaustedGlobal : RLState :=
  { buckets := fun _ => none
    globalBucket := { tokens := 0, lastUpdate := 5 }
    globalInit := true }

/-- C5 witness: with the global bucket at 0 tokens and no time elapsed, the
wrapper denies with the global refusal and the bucket table is untouched. -/
theorem c5_global_precedence_witness :
    (rateLimit exhaustedGlobal "u" 10 (1/10) 5).1 = RLOutcome.globalDenied 10 ∧
    (rateLimit exhaustedGlobal "u" 10 (1/10) 5).2.buckets = exhaustedGlobal.buckets :=
  c5_global_precedence exhaustedGlobal "u" 10 (1/10) 5 (by
    unfold isGloballyAllowed refillBucket
    norm_num [exhaustedGlobal])

/-! C9.  A stored None is indistinguishable from a miss to the cached
wrapper, yet reading it counts as a hit. -/

/-- C9: when the key holds a live entry whose stored value is None, the
wrapper re-executes the wrapped function (third component true), returns the
fresh result, re-stores the key — so a None-returning function runs on every
call — and the read of the stored None is nonetheless counted as a hit. -/
theorem c9_none_never_cached {β : Type} (s : CacheState (Option β)) (key : String)
    (e : CacheEntry (Option β)) (fres : Option β) (ttl now : ℚ)
    (he : lookupEntry s.entries key = some e) (hfresh : now < e.expiresAt)
    (hnone : e.value = none) :
    (cachedCall s key fres ttl now).2.2 = true ∧
    (cachedCall s key fres ttl now).1 = fres ∧
    (cachedCall s key fres ttl now).2.1.hits = s.hits + 1 ∧
    lookupEntry (cachedCall s key fres ttl now).2.1.entries key =
      some { value := fres, expiresAt := now + ttl, createdAt := now } := by
  have hget : cacheGet s key now =
      (some e.value,
       { s with entries := eraseKey s.entries key ++ [(key, e)], hits := s.hits + 1 }) := by
    unfold cacheGet
    rw [he]
    simp only [if_pos hfresh]
  have hcall : cachedCall s key fres ttl now =
      (fres,
       cacheSet { s with entries := eraseKey s.entries key ++ [(key, e)],
                         hits := s.hits + 1 } key fres ttl now,
       true) := by
    unfold cachedCall
    rw [hget, hnone]
    rfl
  rw [hcall]
  refine ⟨rfl, rfl, (cacheSet_stats _ key fres ttl now).2, ?_⟩
  rw [cacheSet_entries]
  exact lookupEntry_eraseKey_append _ _ _

/-- A cache over optional values holding a live stored None under k. -/
def cacheWithNone : CacheState (Option Nat) :=
  { entries := [("k", { value := none, expiresAt := 10, createdAt := 0 })]
    maxSize := 5, hits := 0, misses := 0, evictions := 0 }

/-- C9 witness: reading the live stored None at time 5 re-runs the function,
counts a hit, and re-stores the key. -/
theorem c9_none_never_cached_witness :
    (cachedCall cacheWithNone "k" none 3600 5).2.2 = true ∧
    (cachedCall cacheWithNone "k" none 3600 5).1 = none ∧
    (cachedCall cacheWithNone "k" none 3600 5).2.1.hits = cacheWithNone.hits + 1 ∧
    lookupEntry (cachedCall cacheWithNone "k" none 3600 5).2.1.entries "k" =
      some { value := none, expiresAt := 5 + 3600, createdAt := 5 } :=
  c9_none_never_cached cacheWithNone "k"
    { value := none, expiresAt := 10, createdAt := 0 } none 3600 5
    (by decide) (by norm_num) rfl

/-! C10.  get_retry_after on a missing bucket, and its unreachability after
is_allowed. -/

/-- C10: get_retry_after reads the bucket table unguarded, so for every
identifier with no bucket it fails with a KeyError (none here) and it never
creates a bucket; but after any is_allowed call for that identifier — the
order the rate_limit wrapper guarantees — the bucket exists and
get_retry_after returns a value, so the error branch is unreachable from the
wrapper. -/
theorem c10_retry_after_keyerror :
    (∀ (s : RLState) (identifier : String) (refillRate : ℚ),
      s.buckets identifier = none → getRetryAfter s identifier refillRate = none) ∧
    (∀ (s : RLState) (identifier : String) (capacity refillRate now : ℚ),
      ∃ r : ℤ, getRetryAfter (isAllowed s identifier capacity refillRate now).2
        identifier refillRate = some r) := by
  constructor
  · intro s identifier refillRate h
    unfold getRetryAfter
    rw [h]
  · intro s identifier capacity refillRate now
    have hb : ∃ b : Bucket,
        (isAllowed s identifier capacity refillRate now).2.buckets identifier = some b := by
      unfold isAllowed
      dsimp only
      split
      · exact ⟨_, Function.update_same _ _ _⟩
      · exact ⟨_, Function.update_same _ _ _⟩
    obtain ⟨b, hb⟩ := hb
    unfold getRetryAfter
    rw [hb]
    by_cases hn : 1 - b.tokens ≤ 0
    · exact ⟨0, by simp [hn]⟩
    · exact ⟨pyInt ((1 - b.tokens) / refillRate) + 1, by simp [hn]⟩

/-- C10 witness: on the fresh limiter, get_retry_after for u fails with the
KeyError result, and after one is_allowed call for u it returns a value. -/
theorem c10_retry_after_keyerror_witness :
    getRetryAfter (rlInit 0) "u" (1/10) = none ∧
    ∃ r : ℤ, getRetryAfter (isAllowed (rlInit 0) "u" 10 (1/10) 0).2 "u" (1/10) = some r :=
  ⟨c10_retry_after_keyerror.1 (rlInit 0) "u" (1/10) rfl,
   c10_retry_after_keyerror.2 (rlInit 0) "u" 10 (1/10) 0⟩

/-! C8.  The token-range invariant 0 ≤ tokens ≤ capacity over arbitrary
sequences of is_allowed and is_globally_allowed calls with one fixed
capacity and refill rate, under chronological call times. -/

/-- One limiter call: a per-identifier check or a global check, at a point
in time. -/
inductive RLEvent where
  | user (identifier : String) (t : ℚ)
  | globalReq (t : ℚ)

/-- The time at which an event happens. -/
def evTime : RLEvent → ℚ
  | .user _ t => t
  | .globalReq t => t

/-- The state transition of one limiter call (decision discarded). -/
def rlStep (capacity refillRate : ℚ) (s : RLState) (e : RLEvent) : RLState :=
  match e with
  | .user identifier t => (isAllowed s identifier capacity refillRate t).2
  | .globalReq t => (isGloballyAllowed s capacity refillRate t).2

/-- A sequence of limiter calls. -/
def rlRun (capacity refillRate : ℚ) (s : RLState) (es : List RLEvent) : RLState :=
  es.foldl (rlStep capacity refillRate) s

/-- A bucket is in range at time t: tokens within [0, capacity] and its
last update not in the future. -/
def BucketInv (capacity t : ℚ) (b : Bucket) : Prop :=
  0 ≤ b.tokens ∧ b.tokens ≤ capacity ∧ b.lastUpdate ≤ t

/-- Every bucket of the limiter — per-identifier and global — is in range
at time t. -/
def RLInv (capacity t : ℚ) (s : RLState) : Prop :=
  (∀ (identifier : String) (b : Bucket),
     s.buckets identifier = some b → BucketInv capacity t b) ∧
  BucketInv capacity t s.globalBucket

/-- The time of the last event, or t when there is none. -/
def lastTime (t : ℚ) : List RLEvent → ℚ
  | [] => t
  | e :: es => lastTime (evTime e) es

/-- Being in range is monotone in the time bound. -/
lemma bucketInv_mono {capacity t t' : ℚ} {b : Bucket} (h : BucketInv capacity t b)
    (ht : t ≤ t') : BucketInv capacity t' b :=
  ⟨h.1, h.2.1, h.2.2.trans ht⟩

/-- Refilling keeps a bucket in range: the added amount is nonnegative
(elapsed time is nonnegative by the invariant) and min clamps at
capacity. -/
lemma refill_bucketInv {capacity refillRate t' : ℚ} {b : Bucket}
    (hcap : 0 ≤ capacity) (hrate : 0 ≤ refillRate) (h : BucketInv capacity t' b) :
    BucketInv capacity t' (refillBucket b capacity refillRate t') := by
  obtain ⟨h0, hc, hl⟩ := h
  refine ⟨?_, min_le_left _ _, le_refl t'⟩
  have he : 0 ≤ (t' - b.lastUpdate) * refillRate :=
    mul_nonneg (by linarith) hrate
  exact le_min hcap (by linarith)

/-- Consuming one token from a bucket holding at least one keeps it in
range. -/
lemma consume_bucketInv {capacity t : ℚ} {b : Bucket} (h : BucketInv capacity t b)
    (h1 : 1 ≤ b.tokens) : BucketInv capacity t { b with tokens := b.tokens - 1 } := by
  obtain ⟨h0, hc, hl⟩ := h
  refine ⟨?_, ?_, hl⟩
  · dsimp only
    linarith
  · dsimp only
    linarith

/-- Updating one identifier's bucket with an in-range bucket keeps every
bucket of the table in range. -/
lemma rlInv_update {capacity t : ℚ} {s : RLState} {identifier : String} {bnew : Bucket}
    (hB : ∀ (j : String) (b : Bucket), s.buckets j = some b → BucketInv capacity t b)
    (hG : BucketInv capacity t s.globalBucket) (hnew : BucketInv capacity t bnew) :
    RLInv capacity t { s with buckets := Function.update s.buckets identifier (some bnew) } := by
  constructor
  · intro j bj hj
    have hj' : Function.update s.buckets identifier (some bnew) j = some bj := hj
    by_cases hji : j = identifier
    · subst hji
      rw [Function.update_same] at hj'
      cases hj'
      exact hnew
    · rw [Function.update_noteq hji] at hj'
      exact hB j bj hj'
  · exact hG

/-- is_allowed preserves the limiter invariant when called at a time no
earlier than the bound. -/
lemma isAllowed_inv {capacity refillRate t t' : ℚ} {s : RLState}
    (hcap : 0 < capacity) (hrate : 0 ≤ refillRate) (identifier : String)
    (hInv : RLInv capacity t s) (ht : t ≤ t') :
    RLInv capacity t' (isAllowed s identifier capacity refillRate t').2 := by
  obtain ⟨hB, hG⟩ := hInv
  have hb0 : BucketInv capacity t'
      ((s.buckets identifier).getD { tokens := capacity, lastUpdate := t' }) := by
    cases hbs : s.buckets identifier with
    | none => exact ⟨le_of_lt hcap, le_refl capacity, le_refl t'⟩
    | some b => exact bucketInv_mono (hB identifier b hbs) ht
  have hb1 : BucketInv capacity t'
      (refillBucket ((s.buckets identifier).getD { tokens := capacity, lastUpdate := t' })
        capacity refillRate t') :=
    refill_bucketInv (le_of_lt hcap) hrate hb0
  unfold isAllowed
  dsimp only
  split
  case isTrue h1 =>
    exact rlInv_update (fun j b hjb => bucketInv_mono (hB j b hjb) ht)
      (bucketInv_mono hG ht) (consume_bucketInv hb1 h1)
  case isFalse h1 =>
    exact rlInv_update (fun j b hjb => bucketInv_mono (hB j b hjb) ht)
      (bucketInv_mono hG ht) hb1

/-- is_globally_allowed preserves the limiter invariant when called at a
time no earlier than the bound. -/
lemma isGloballyAllowed_inv {capacity refillRate t t' : ℚ} {s : RLState}
    (hcap : 0 < capacity) (hrate : 0 ≤ refillRate)
    (hInv : RLInv capacity t s) (ht : t ≤ t') :
    RLInv capacity t' (isGloballyAllowed s capacity refillRate t').2 := by
  obtain ⟨hB, hG⟩ := hInv
  have hBmono : ∀ (j : String) (b : Bucket), s.buckets j = some b → BucketInv capacity t' b :=
    fun j b hjb => bucketInv_mono (hB j b hjb) ht
  unfold isGloballyAllowed
  dsimp only
  by_cases hi : s.globalInit = true
  · have hg1 : BucketInv capacity t' (refillBucket s.globalBucket capacity refillRate t') :=
      refill_bucketInv (le_of_lt hcap) hrate (bucketInv_mono hG ht)
    rw [if_pos hi]
    split
    next h1 => exact ⟨hBmono, consume_bucketInv hg1 h1⟩
    next h1 => exact ⟨hBmono, hg1⟩
  · have hg0 : BucketInv capacity t' { s.globalBucket with tokens := capacity } :=
      ⟨le_of_lt hcap, le_refl capacity, hG.2.2.trans ht⟩
    have hg1 : BucketInv capacity t'
        (refillBucket { s.globalBucket with tokens := capacity } capacity refillRate t') :=
      refill_bucketInv (le_of_lt hcap) hrate hg0
    rw [if_neg hi]
    split
    next h1 => exact ⟨hBmono, consume_bucketInv hg1 h1⟩
    next h1 => exact ⟨hBmono, hg1⟩

/-- One limiter call preserves the invariant up to its own time. -/
lemma rlStep_inv {capacity refillRate t : ℚ} {s : RLState}
    (hcap : 0 < capacity) (hrate : 0 ≤ refillRate) (e : RLEvent)
    (hInv : RLInv capacity t s) (ht : t ≤ evTime e) :
    RLInv capacity (evTime e) (rlStep capacity refillRate s e) := by
  cases e with
  | user identifier t' => exact isAllowed_inv hcap hrate identifier hInv ht
  | globalReq t' => exact isGloballyAllowed_inv hcap hrate hInv ht

/-- C8: for a fixed capacity > 0 and refill rate ≥ 0, over every sequence of
is_allowed / is_globally_allowed calls at chronological times, every bucket
of the limiter — per-identifier and global alike — keeps 0 ≤ tokens ≤
capacity (and a never-future lastUpdate) after every call: the refill adds
elapsed * refillRate clamped at capacity and a token is consumed only when
at least 1.0 is available.  The invariant holds after each prefix of the
sequence, since the theorem applies to each prefix as a run of its own. -/
theorem c8_tokens_in_range (capacity refillRate : ℚ) (hcap : 0 < capacity)
    (hrate : 0 ≤ refillRate) (s : RLState) (t : ℚ) (es : List RLEvent)
    (hInv : RLInv capacity t s)
    (hchain : List.Chain (· ≤ ·) t (es.map evTime)) :
    RLInv capacity (lastTime t es) (rlRun capacity refillRate s es) := by
  induction es generalizing s t with
  | nil => exact hInv
  | cons e es ih =>
    rw [List.map_cons, List.chain_cons] at hchain
    exact ih _ _ (rlStep_inv hcap hrate e hInv hchain.1) hchain.2

/-- Three chronological calls against a fresh limiter. -/
def rlEvents : List RLEvent :=
  [RLEvent.user "a" 1, RLEvent.globalReq 2, RLEvent.user "a" 2]

/-- C8 witness: capacity 10, refill rate 1/10, a fresh limiter constructed
at time 0 and three chronological calls. -/
theorem c8_tokens_in_range_witness :
    RLInv 10 (lastTime 0 rlEvents) (rlRun 10 (1/10) (rlInit 0) rlEvents) :=
  c8_tokens_in_range 10 (1/10) (by norm_num) (by norm_num) (rlInit 0) 0 rlEvents
    ⟨fun identifier b h => by simp [rlInit] at h,
     by norm_num [rlInit, BucketInv]⟩
    (by norm_num [rlEvents, evTime, List.chain_cons])

end GfG
